import Mathlib

/-!
Shallow embedding of the `genai-cost-estimator` repository.

Two tools are embedded:
- `src/meeting_analyzer.py`: price-table loading (`_load_prices`), the per-chunk
  response-processing loop of `analyze_meeting` (token accounting, JSON-parse
  recovery, result merging) and the cost calculation;
- `src/csv2json.py`: the CSV-to-JSON converter, modelled over an explicit
  file-system map.

Machine floats are embedded as exact rationals (`ℚ`); Python exceptions are
embedded as `Except` results; the external generation service's responses are
embedded as explicit values carrying the response text's JSON-parse outcome and
the optional usage metadata.
-/

/-- A JSON scalar as it can appear in an `Input`/`Output` field of a price
record: a number or a string. -/
inductive PriceVal where
  | num (q : ℚ)
  | str (s : String)
deriving DecidableEq

/-- Value of a list of decimal digit characters, `none` if a non-digit occurs. -/
def decDigits (cs : List Char) : Option Nat :=
  if cs.all Char.isDigit then
    some (cs.foldl (fun n c => n * 10 + (c.toNat - 48)) 0)
  else none

/-- Python's built-in `float()` applied to a plain decimal numeric string:
an optional sign, then digits with at most one decimal point and at least one
digit overall (exponents, `inf`/`nan`, underscores and surrounding whitespace
are outside the shapes price tables use and are not modelled). -/
def pyFloatStr (s : String) : Option ℚ :=
  let cs := s.toList
  let signed : ℚ × List Char :=
    match cs with
    | '-' :: rest => (-1, rest)
    | '+' :: rest => (1, rest)
    | _ => (1, cs)
  match signed.2.splitOn '.' with
  | [ip] =>
      if ip.isEmpty then none
      else (decDigits ip).map (fun n => signed.1 * n)
  | [ip, fp] =>
      if ip.isEmpty && fp.isEmpty then none
      else
        match decDigits ip, decDigits fp with
        | some i, some f => some (signed.1 * ((i : ℚ) + (f : ℚ) / 10 ^ fp.length))
        | _, _ => none
  | _ => none

/-- Python's `float()` on a price-record field value. -/
def pyFloat : PriceVal → Option ℚ
  | .num q => some q
  | .str s => pyFloatStr s

/-- One record of the price file: a JSON object with at least a `Model` name and
`Input`/`Output` per-1000-token rates (other keys are irrelevant to the code). -/
structure PriceRecord where
  model : String
  input : PriceVal
  output : PriceVal
deriving DecidableEq

/-- The pair of rates `_load_prices` returns (`{"input": ..., "output": ...}`). -/
structure Rates where
  input : ℚ
  output : ℚ
deriving DecidableEq

/-- The exceptions `_load_prices` can raise: the explicit
`ValueError("Gemini 1.5 Pro pricing not found in price file")`, or the
`ValueError` that `float()` raises on a non-numeric field. -/
inductive LoadError where
  | pricingNotFound (model : String)
  | floatConvError
deriving DecidableEq

/-- The hard-coded target model of `MeetingAnalyzer`. -/
def targetModel : String := "Gemini 1.5 Pro"

/-- Embedding of `MeetingAnalyzer._load_prices` after `json.load`: scan the
record list in order for the first record whose `Model` equals the target,
convert its `Input`/`Output` with `float()`, and fail with the documented
error if no record matches. -/
def _load_prices : List PriceRecord → Except LoadError Rates
  | [] => .error (.pricingNotFound targetModel)
  | r :: rest =>
      if r.model = targetModel then
        match pyFloat r.input, pyFloat r.output with
        | some i, some o => .ok ⟨i, o⟩
        | _, _ => .error .floatConvError
      else _load_prices rest

/-- The `usage_metadata` attribute of a generation response. -/
structure Usage where
  prompt_token_count : Nat
  candidates_token_count : Nat
deriving DecidableEq

/-- The per-chunk JSON object the model is asked to return; each of the four
keys may be absent from the parsed object (`r.get(key, default)` handles that). -/
structure ParsedResult where
  summary : Option String
  actions : Option (List String)
  positives : Option (List String)
  improvements : Option (List String)
deriving DecidableEq

/-- Outcome of `json.loads(response.text)`: either the parsed four-field object,
or a `JSONDecodeError` on the raw text. The response body itself is produced by
the external generation service, so the embedding carries its parse outcome
rather than re-implementing a JSON parser. -/
inductive Body where
  | valid (r : ParsedResult)
  | invalid (raw : String)
deriving DecidableEq

/-- One response of the generation service: optional usage metadata plus the
response text's JSON-parse outcome. -/
structure ChunkResponse where
  usage_metadata : Option Usage
  body : Body
deriving DecidableEq

/-- The running `total_tokens` accumulator. -/
structure TokenUsage where
  input : Nat
  output : Nat
deriving DecidableEq

/-- Token accounting for one chunk: if the response has `usage_metadata`, add
its prompt and candidates token counts, otherwise leave the totals unchanged. -/
def stepTokens (t : TokenUsage) (resp : ChunkResponse) : TokenUsage :=
  match resp.usage_metadata with
  | some u => ⟨t.input + u.prompt_token_count, t.output + u.candidates_token_count⟩
  | none => t

/-- One iteration of the `analyze_meeting` loop: accumulate token usage first,
then try to parse; a successfully parsed result is appended to `all_results`,
a `JSONDecodeError` only prints a warning and leaves `all_results` as it was. -/
def chunkStep (acc : List ParsedResult × TokenUsage) (resp : ChunkResponse) :
    List ParsedResult × TokenUsage :=
  let tokens := stepTokens acc.2 resp
  match resp.body with
  | .valid r => (acc.1 ++ [r], tokens)
  | .invalid _ => (acc.1, tokens)

/-- The `analyze_meeting` loop over all chunks, starting from an empty
`all_results` and zero token totals. -/
def processChunks (resps : List ChunkResponse) : List ParsedResult × TokenUsage :=
  resps.foldl chunkStep ([], ⟨0, 0⟩)

/-- The `combined_results` dict of `analyze_meeting`. -/
structure CombinedResult where
  summary : String
  actions : List String
  positives : List String
  improvements : List String
deriving DecidableEq

/-- Embedding of the `combined_results` construction: join the per-result
summaries (defaulting to `""`) with newlines, and concatenate each list field
(defaulting to `[]`) in order. -/
def combineResults (rs : List ParsedResult) : CombinedResult :=
  { summary := String.intercalate "\n" (rs.map (fun r => r.summary.getD ""))
    actions := rs.flatMap (fun r => r.actions.getD [])
    positives := rs.flatMap (fun r => r.positives.getD [])
    improvements := rs.flatMap (fun r => r.improvements.getD []) }

/-- The `costs` dict of `analyze_meeting`. -/
structure Costs where
  input_cost : ℚ
  output_cost : ℚ
  total_cost : ℚ
deriving DecidableEq

/-- Embedding of the cost calculation: `(tokens / 1000) * rate` per direction,
with the total recomputed as the sum of the two products, exactly as written. -/
def calcCosts (t : TokenUsage) (p : Rates) : Costs :=
  { input_cost := ((t.input : ℚ) / 1000) * p.input
    output_cost := ((t.output : ℚ) / 1000) * p.output
    total_cost := ((t.input : ℚ) / 1000) * p.input + ((t.output : ℚ) / 1000) * p.output }

/-- Embedding of `analyze_meeting` from the point where the per-chunk responses
are in hand: process every chunk in order, merge the parsed results, and price
the accumulated token usage. -/
def analyze_meeting (resps : List ChunkResponse) (prices : Rates) :
    CombinedResult × Costs :=
  let acc := processChunks resps
  (combineResults acc.1, calcCosts acc.2 prices)

/-- Modelled from the spec: the chunker (`RecursiveCharacterTextSplitter` from
the langchain library, configured in `analyze_meeting` with `chunk_size=30000`
and `chunk_overlap=1000`) is not part of this repository's sources. Per the
spec's chunker contract, a transcript no longer than the maximum chunk length
is returned whole as the single chunk; a longer transcript is cut into windows
that advance by the maximum length minus the overlap so that consecutive chunks
share the configured overlap. -/
def split_text (chunkSize overlap : Nat) (t : String) : List String :=
  if t.length ≤ chunkSize then [t]
  else
    let step := chunkSize - overlap
    (List.range ((t.length - overlap + step - 1) / step)).map
      (fun i => String.mk ((t.toList.drop (i * step)).take chunkSize))

/-- An explicit file system: an association list from path to file content,
later writes shadowing earlier ones. -/
structure FS where
  files : List (String × String)
deriving DecidableEq

/-- Reading a path: the content of the most recent write to it, if any. -/
def FS.read (fs : FS) (p : String) : Option String :=
  (fs.files.find? (fun e => e.1 = p)).map (fun e => e.2)

/-- Writing a path. -/
def FS.write (fs : FS) (p c : String) : FS :=
  ⟨(p, c) :: fs.files⟩

/-- Modelled from the spec: the CSV parsing and JSON serialization of
`csv2json.py` are library calls (`pandas.read_csv` / `DataFrame.to_json`) not
in this repository's sources. Per the spec, every row becomes a JSON object
keyed by column header and the rows are serialized as a pretty-printed JSON
array; numeric inference and 4-space indentation are the library's defaults,
abstracted here as a row-by-row rendering. The claims settled below never
depend on this function's output. -/
def df_to_json (content : String) : String :=
  match content.splitOn "\x0a" with
  | [] => "[]"
  | header :: rows =>
      let keys := header.splitOn ","
      let renderRow := fun (row : String) =>
        String.intercalate ", "
          ((keys.zip (row.splitOn ",")).map (fun kv => kv.1 ++ ": " ++ kv.2))
      "[" ++ String.intercalate ", " (rows.map renderRow) ++ "]"

/-- The exceptions the converter can raise before writing. -/
inductive CsvError where
  | fileNotFound (source : String)
deriving DecidableEq

/-- Embedding of `csv2json.py`'s pipeline after argument parsing: check that
the source exists (raising `FileNotFoundError` if not), then read it, convert,
and write the JSON to the output path. The returned file system is the state
after the run; a raised error leaves it as it was. -/
def csv2json_run (fs : FS) (source output : String) : FS × Except CsvError Unit :=
  match fs.read source with
  | none => (fs, .error (.fileNotFound source))
  | some content => (fs.write output (df_to_json content), .ok ())

/-- An entirely empty parsed result (empty summary, empty lists); used to state
the spec's placeholder reading of parse-failure handling. -/
def emptyParsed : ParsedResult :=
  ⟨some "", some [], some [], some []⟩

/-- The spec's reading of parse-failure handling, stated for comparison with
the code: every chunk contributes to the merge in chunk order, a chunk whose
body failed to parse standing in as an entirely empty result. -/
def placeholderResults (resps : List ChunkResponse) : List ParsedResult :=
  resps.map (fun resp =>
    match resp.body with
    | .valid r => r
    | .invalid _ => emptyParsed)

/-- The parsed result a response contributes to `all_results`, if any. -/
def parsedOf : Body → Option ParsedResult
  | .valid r => some r
  | .invalid _ => none

/-- The prompt-token count a response reports (`0` when metadata is absent). -/
def usageInput (r : ChunkResponse) : Nat :=
  match r.usage_metadata with
  | some u => u.prompt_token_count
  | none => 0

/-- The candidates-token count a response reports (`0` when metadata is absent). -/
def usageOutput (r : ChunkResponse) : Nat :=
  match r.usage_metadata with
  | some u => u.candidates_token_count
  | none => 0

/-- Replacing each absent field of a parsed result by its explicit empty
default, as `r.get(key, default)` does at merge time. -/
def fillDefaults (r : ParsedResult) : ParsedResult :=
  ⟨some (r.summary.getD ""), some (r.actions.getD []),
   some (r.positives.getD []), some (r.improvements.getD [])⟩

/-- A concrete run with a parse failure between two parsed chunks, used to
separate the code's skip-the-chunk behavior from the spec's placeholder
reading. -/
def exC1 : List ChunkResponse :=
  [⟨some ⟨10, 5⟩, .valid ⟨some "A", some ["a1"], some [], some []⟩⟩,
   ⟨some ⟨7, 3⟩, .invalid "I could not produce JSON"⟩,
   ⟨none, .valid ⟨some "B", some [], some ["p1"], some []⟩⟩]

/-- Helper: the fold of `processChunks` from an arbitrary accumulator appends
the parsed results in order and adds every chunk's reported token counts. -/
theorem processChunks_foldl (resps : List ChunkResponse)
    (rs : List ParsedResult) (t : TokenUsage) :
    resps.foldl chunkStep (rs, t) =
      (rs ++ resps.filterMap (fun r => parsedOf r.body),
       ⟨t.input + (resps.map usageInput).sum,
        t.output + (resps.map usageOutput).sum⟩) := by
  induction resps generalizing rs t with
  | nil => simp
  | cons head tail ih =>
      obtain ⟨um, body⟩ := head
      rw [List.foldl_cons]
      cases body with
      | valid r =>
          rw [show chunkStep (rs, t) ⟨um, Body.valid r⟩ =
              (rs ++ [r], stepTokens t ⟨um, Body.valid r⟩) from rfl, ih]
          cases um <;>
            simp [stepTokens, parsedOf, usageInput, usageOutput, Nat.add_assoc]
      | invalid raw =>
          rw [show chunkStep (rs, t) ⟨um, Body.invalid raw⟩ =
              (rs, stepTokens t ⟨um, Body.invalid raw⟩) from rfl, ih]
          cases um <;>
            simp [stepTokens, parsedOf, usageInput, usageOutput, Nat.add_assoc]

/-- Helper: closed form of `processChunks`: the successfully parsed results in
chunk order, and the sum of every chunk's reported token counts. -/
theorem processChunks_eq (resps : List ChunkResponse) :
    processChunks resps =
      (resps.filterMap (fun r => parsedOf r.body),
       ⟨(resps.map usageInput).sum, (resps.map usageOutput).sum⟩) := by
  simpa [processChunks] using processChunks_foldl resps [] ⟨0, 0⟩

/-- C2: for every accumulated token usage and loaded rates, the cost estimate
satisfies `input_cost = (input_tokens / 1000) * input_rate`,
`output_cost = (output_tokens / 1000) * output_rate` and
`total_cost = input_cost + output_cost`; in particular, 100 input tokens and
50 output tokens at rates 0.075 and 0.30 per 1000 tokens cost exactly 0.0075,
0.015 and 0.0225. -/
theorem calcCosts_formula :
    (∀ (t : TokenUsage) (p : Rates),
        (calcCosts t p).input_cost = ((t.input : ℚ) / 1000) * p.input ∧
        (calcCosts t p).output_cost = ((t.output : ℚ) / 1000) * p.output ∧
        (calcCosts t p).total_cost = (calcCosts t p).input_cost + (calcCosts t p).output_cost) ∧
    calcCosts ⟨100, 50⟩ ⟨75 / 1000, 30 / 100⟩ = ⟨75 / 10000, 15 / 1000, 225 / 10000⟩ := by
  refine ⟨fun t p => ⟨rfl, rfl, rfl⟩, ?_⟩
  simp only [calcCosts, Costs.mk.injEq]
  norm_num

/-- C3: on a price table in which no record's model name equals the hard-coded
target model, `_load_prices` fails with the "pricing not found" error naming
the missing model; it never returns a rate. -/
theorem load_prices_not_found (table : List PriceRecord)
    (h : ∀ r ∈ table, r.model ≠ targetModel) :
    _load_prices table = .error (.pricingNotFound targetModel) := by
  induction table with
  | nil => rfl
  | cons r rest ih =>
      have hr : ¬r.model = targetModel := h r (List.mem_cons_self r rest)
      simp only [_load_prices, if_neg hr]
      exact ih fun r' hr' => h r' (List.mem_cons_of_mem r hr')

/-- Witness for C3 at a concrete one-record table missing the target model. -/
theorem load_prices_not_found_witness :
    _load_prices [⟨"GPT-4o", .num (5 / 2), .num 10⟩] =
      .error (.pricingNotFound targetModel) :=
  load_prices_not_found [⟨"GPT-4o", .num (5 / 2), .num 10⟩] (by decide)

/-- C4: merging any ordered sequence of per-chunk results in which all four
fields are present concatenates the summaries with newline separators in chunk
order, and concatenates each of the three list fields in chunk order,
preserving every item exactly once. -/
theorem combine_all_fields_present
    (qs : List (String × List String × List String × List String)) :
    combineResults
        (qs.map (fun q => ⟨some q.1, some q.2.1, some q.2.2.1, some q.2.2.2⟩)) =
      ⟨String.intercalate "\x0a" (qs.map (fun q => q.1)),
       (qs.map (fun q => q.2.1)).flatten,
       (qs.map (fun q => q.2.2.1)).flatten,
       (qs.map (fun q => q.2.2.2)).flatten⟩ := by
  simp [combineResults, List.flatMap, Function.comp_def]

/-- C5: a transcript whose length is at most the maximum chunk length is
returned by the chunker as exactly one chunk equal to the whole transcript. -/
theorem split_text_short (chunkSize overlap : Nat) (t : String)
    (h : t.length ≤ chunkSize) :
    split_text chunkSize overlap t = [t] := by
  simp [split_text, h]

/-- Witness for C5 at the configured chunk size and a concrete transcript. -/
theorem split_text_short_witness :
    split_text 30000 1000 "Team sync, 2024-11-20." = ["Team sync, 2024-11-20."] :=
  split_text_short 30000 1000 "Team sync, 2024-11-20." (by decide)

/-- C6: on a valid price table (every record's rates convertible by `float()`,
whether numbers or numeric strings) that contains a record for the target
model, `_load_prices` succeeds and returns rates equal to the values of a
matching record of the table exactly. -/
theorem load_prices_target_present (table : List PriceRecord)
    (hnum : ∀ r ∈ table, (pyFloat r.input).isSome ∧ (pyFloat r.output).isSome)
    (hmem : ∃ r ∈ table, r.model = targetModel) :
    ∃ r ∈ table, r.model = targetModel ∧
      ∃ i o, pyFloat r.input = some i ∧ pyFloat r.output = some o ∧
        _load_prices table = .ok ⟨i, o⟩ := by
  induction table with
  | nil => simp at hmem
  | cons a rest ih =>
      by_cases ha : a.model = targetModel
      · obtain ⟨hi, ho⟩ := hnum a (List.mem_cons_self a rest)
        obtain ⟨i, hi'⟩ := Option.isSome_iff_exists.mp hi
        obtain ⟨o, ho'⟩ := Option.isSome_iff_exists.mp ho
        refine ⟨a, List.mem_cons_self a rest, ha, i, o, hi', ho', ?_⟩
        simp [_load_prices, ha, hi', ho']
      · have hmem' : ∃ r ∈ rest, r.model = targetModel := by
          obtain ⟨r, hr, hrm⟩ := hmem
          rcases List.mem_cons.mp hr with h | h
          · exact absurd (h ▸ hrm) ha
          · exact ⟨r, h, hrm⟩
        obtain ⟨r, hr, hrm, i, o, hi', ho', hres⟩ :=
          ih (fun r' h' => hnum r' (List.mem_cons_of_mem a h')) hmem'
        refine ⟨r, List.mem_cons_of_mem a hr, hrm, i, o, hi', ho', ?_⟩
        simpa [_load_prices, ha] using hres

/-- Witness for C6 at a concrete table whose matching record carries its input
rate as a numeric string and its output rate as a number. -/
theorem load_prices_target_present_witness :
    ∃ r ∈ [(⟨"Claude 3.5 Sonnet", .num 3, .num 15⟩ : PriceRecord),
           ⟨"Gemini 1.5 Pro", .str "0.075", .num (3 / 10)⟩],
      r.model = targetModel ∧
        ∃ i o, pyFloat r.input = some i ∧ pyFloat r.output = some o ∧
          _load_prices [⟨"Claude 3.5 Sonnet", .num 3, .num 15⟩,
              ⟨"Gemini 1.5 Pro", .str "0.075", .num (3 / 10)⟩] = .ok ⟨i, o⟩ :=
  load_prices_target_present
    [⟨"Claude 3.5 Sonnet", .num 3, .num 15⟩,
     ⟨"Gemini 1.5 Pro", .str "0.075", .num (3 / 10)⟩]
    (by decide) (by decide)

/-- C9: when several records match the target model, `_load_prices` returns the
rates of the first match in list order; the records after it never affect the
result (the conclusion does not depend on `post`). -/
theorem load_prices_first_match (pre post : List PriceRecord) (r : PriceRecord)
    (hpre : ∀ r' ∈ pre, r'.model ≠ targetModel)
    (hr : r.model = targetModel)
    (i o : ℚ) (hi : pyFloat r.input = some i) (ho : pyFloat r.output = some o) :
    _load_prices (pre ++ r :: post) = .ok ⟨i, o⟩ := by
  induction pre with
  | nil => simp [_load_prices, hr, hi, ho]
  | cons a rest ih =>
      have ha : ¬a.model = targetModel := hpre a (List.mem_cons_self a rest)
      rw [List.cons_append]
      simp only [_load_prices, if_neg ha]
      exact ih fun r' h' => hpre r' (List.mem_cons_of_mem a h')

/-- Witness for C9: a later duplicate record for the target model with wildly
different rates does not change the result. -/
theorem load_prices_first_match_witness :
    _load_prices
        ([⟨"GPT-4o", .num 5, .num 15⟩] ++
          (⟨"Gemini 1.5 Pro", .num (3 / 40), .num (3 / 10)⟩ : PriceRecord) ::
            [⟨"Gemini 1.5 Pro", .num 999, .num 999⟩]) =
      .ok ⟨3 / 40, 3 / 10⟩ :=
  load_prices_first_match
    [⟨"GPT-4o", .num 5, .num 15⟩] [⟨"Gemini 1.5 Pro", .num 999, .num 999⟩]
    ⟨"Gemini 1.5 Pro", .num (3 / 40), .num (3 / 10)⟩
    (by decide) (by decide) (3 / 40) (3 / 10) rfl rfl

/-- C7: when the source path does not exist in the file system, the converter
stops with the not-found error before any parsing, and the file system is
returned unchanged: no output file is written. -/
theorem csv2json_missing_source (fs : FS) (source output : String)
    (h : fs.read source = none) :
    csv2json_run fs source output = (fs, .error (.fileNotFound source)) := by
  simp [csv2json_run, h]

/-- Witness for C7 at a concrete file system that lacks the source path. -/
theorem csv2json_missing_source_witness :
    csv2json_run ⟨[("prices.csv", "Model,Input,Output")]⟩
        "llm-prices.csv" "llm-prices.json" =
      (⟨[("prices.csv", "Model,Input,Output")]⟩,
        .error (.fileNotFound "llm-prices.csv")) :=
  csv2json_missing_source ⟨[("prices.csv", "Model,Input,Output")]⟩
    "llm-prices.csv" "llm-prices.json" rfl

/-- C8: a response without usage metadata adds zero tokens to the accumulator
(and raises nothing: the accounting is total); a response with metadata adds
its prompt-token and candidates-token counts; appending a metadata-free
response to any run leaves the run's accumulated totals unchanged. -/
theorem tokens_absent_metadata :
    (∀ (t : TokenUsage) (b : Body), stepTokens t ⟨none, b⟩ = t) ∧
    (∀ (t : TokenUsage) (u : Usage) (b : Body),
        stepTokens t ⟨some u, b⟩ =
          ⟨t.input + u.prompt_token_count, t.output + u.candidates_token_count⟩) ∧
    (∀ (resps : List ChunkResponse) (b : Body),
        (processChunks (resps ++ [⟨none, b⟩])).2 = (processChunks resps).2) := by
  refine ⟨fun t b => rfl, fun t u b => rfl, fun resps b => ?_⟩
  simp [processChunks_eq, usageInput, usageOutput]

/-- C10: a response that parses as an object with some of the four fields
missing causes no error: it is appended to the results like any parsed chunk,
and merging treats each absent field as its empty default (empty string for
the summary, empty list for the list fields) while present fields merge
normally — filling the defaults in explicitly changes nothing. -/
theorem merge_defaults_missing_fields :
    (∀ (resps : List ChunkResponse) (um : Option Usage) (r : ParsedResult),
        (processChunks (resps ++ [⟨um, .valid r⟩])).1 =
          (processChunks resps).1 ++ [r]) ∧
    (∀ rs : List ParsedResult,
        combineResults rs = combineResults (rs.map fillDefaults)) := by
  constructor
  · intro resps um r
    simp [processChunks_eq, parsedOf]
  · intro rs
    simp [combineResults, fillDefaults, List.flatMap_map, List.map_map,
      Function.comp_def]

/-- C1 is refuted as stated: on a run whose second chunk fails to parse
between two parsed chunks, the code's merged output differs from the merge in
which an empty result stands in the failed chunk's place in chunk order (the
placeholder reading would join an extra empty summary line). -/
theorem merge_placeholder_counterexample :
    (analyze_meeting exC1 ⟨3 / 40, 3 / 10⟩).1 ≠
      combineResults (placeholderResults exC1) := by
  decide

/-- C1 (amended): a chunk whose response body is not parseable JSON is omitted
from the merge entirely — it contributes no summary line (not even an empty
one) and no list items, the parsed chunks merging in chunk order — the run
continues instead of aborting, and every chunk's reported token counts,
parse failure or not, are added to the running TokenUsage total. -/
theorem analyze_skips_unparsed (resps : List ChunkResponse) (prices : Rates) :
    analyze_meeting resps prices =
      (combineResults (resps.filterMap (fun r => parsedOf r.body)),
       calcCosts ⟨(resps.map usageInput).sum, (resps.map usageOutput).sum⟩
         prices) := by
  simp [analyze_meeting, processChunks_eq]
